import Mathlib

/-!
Verification of the gogram session/transport layer (`network.go`) and the
entity cache (`telegram/cache.go`).  Go maps (`map[int64]V`) are embedded as
association lists with overwrite-on-insert; machine integers (`int32`,
`int64`) are embedded as `Int` with explicit wrap-around where the source can
overflow; Go channels are embedded as identifiers plus an explicit record of
pending synthetic deliveries.  The binary codec and the byte transport are
external collaborators and are embedded as total, injective stand-ins.
-/

set_option maxRecDepth 4000

namespace Gogram

/-! ### Association lists: the embedding of Go maps -/

def alLookup {α : Type} : List (Int × α) → Int → Option α
  | [], _ => none
  | (k, v) :: t, k0 => if k = k0 then some v else alLookup t k0

def alErase {α : Type} : List (Int × α) → Int → List (Int × α)
  | [], _ => []
  | (k0, v) :: t, k => if k0 = k then alErase t k else (k0, v) :: alErase t k

def alInsert {α : Type} (l : List (Int × α)) (k : Int) (v : α) : List (Int × α) :=
  (k, v) :: alErase l k

theorem alLookup_nil {α : Type} (k : Int) : alLookup ([] : List (Int × α)) k = none := rfl

theorem alLookup_alErase_ne {α : Type} (l : List (Int × α)) (k k0 : Int) (h : k ≠ k0) :
    alLookup (alErase l k) k0 = alLookup l k0 := by
  induction l with
  | nil => rfl
  | cons p t ih =>
    obtain ⟨pk, pv⟩ := p
    simp only [alErase]
    by_cases hp : pk = k
    · rw [if_pos hp, ih]
      have hk0 : ¬ (pk = k0) := by omega
      simp [alLookup, hk0]
    · rw [if_neg hp]
      simp only [alLookup]
      by_cases hk0 : pk = k0
      · simp [hk0]
      · simp [hk0, ih]

theorem alLookup_alErase_self {α : Type} (l : List (Int × α)) (k : Int) :
    alLookup (alErase l k) k = none := by
  induction l with
  | nil => rfl
  | cons p t ih =>
    obtain ⟨pk, pv⟩ := p
    by_cases hp : pk = k
    · simp [alErase, alLookup, hp, ih]
    · simp [alErase, alLookup, hp, ih]

theorem alLookup_alInsert_self {α : Type} (l : List (Int × α)) (k : Int) (v : α) :
    alLookup (alInsert l k v) k = some v := by
  simp [alInsert, alLookup]

theorem alLookup_alInsert_ne {α : Type} (l : List (Int × α)) (k k0 : Int) (v : α)
    (h : k ≠ k0) : alLookup (alInsert l k v) k0 = alLookup l k0 := by
  simp only [alInsert, alLookup, h, if_false]
  exact alLookup_alErase_ne l k k0 h

theorem alLookup_eq_none_iff {α : Type} (l : List (Int × α)) (k : Int) :
    alLookup l k = none ↔ k ∉ l.map Prod.fst := by
  induction l with
  | nil => simp [alLookup]
  | cons p t ih =>
    obtain ⟨pk, pv⟩ := p
    by_cases hp : pk = k
    · simp [alLookup, hp]
    · simp [alLookup, hp, ih, Ne.symm hp]

/-! ### Protocol objects and the (external) codec -/

/-- Request/response kinds relevant to the send path.  `pong` embeds
`*objects.Pong`, `msgsAck` embeds `*objects.MsgsAck`, `null` embeds
`*objects.Null`, and `other tag` stands for every remaining `tl.Object`. -/
inductive TLObject where
  | pong
  | msgsAck
  | null
  | other (tag : Nat)
deriving DecidableEq

/-- The binary codec (`tl.Marshal`) is an external collaborator of the core
(spec section 1); it is embedded as a total injective encoder, so the
marshalling-error branch of `sendPacket` is present but unreachable here. -/
def tlEncode : TLObject → List Nat
  | .pong => [0]
  | .msgsAck => [1]
  | .null => [2]
  | .other tag => [3, tag]

def tlMarshal (t : TLObject) : Except String (List Nat) := Except.ok (tlEncode t)

/-- `isNullableResponse` from network.go lines 87 to 94: `Pong` and `MsgsAck`
never receive a substantive reply. -/
def isNullableResponse : TLObject → Bool
  | .pong => true
  | .msgsAck => true
  | _ => false

/-- Modelled from the spec: `MessageRequireToAck` lives outside src/ (only its
call site in `sendPacket` is visible).  The spec only requires that the framed
bytes are handed to the transport together with a needs-acknowledgment flag
computed from the request; acknowledgments themselves do not require an ack. -/
def MessageRequireToAck : TLObject → Bool
  | .msgsAck => false
  | _ => true

/-- Modelled from the spec: `utils.GenerateMessageId` lives outside src/ (only
its call site in `sendPacket` is visible).  The spec states that every newly
generated message ID is numerically greater than the previous one generated on
the session; the generator is embedded as a function of the previous ID and a
clock-derived candidate that returns the candidate when it already exceeds the
previous ID and otherwise a value strictly above the previous ID. -/
def GenerateMessageId (prevID candidate : Int) : Int :=
  if prevID < candidate then candidate else prevID + 4

theorem GenerateMessageId_gt (prevID candidate : Int) :
    prevID < GenerateMessageId prevID candidate := by
  unfold GenerateMessageId
  split <;> omega

/-! ### MTProto session state and the send path -/

/-- The session state of `MTProto` used by network.go.  Reply channels are
embedded as identifiers (`Nat`); `pendingNull` records the channels into which
a synthetic `objects.Null` has been queued by the `go func` on line 38;
`nextChan` generates a fresh identifier for each `make(chan tl.Object)`. -/
structure MTProto where
  lastMessageID : Int
  seqNo : Int
  encrypted : Bool
  serviceModeActivated : Bool
  authKeyHash : List Nat
  sessionId : Int
  serverSalt : Int
  responseChannels : List (Int × Nat)
  expectedTypes : List (Int × List Nat)
  serviceChannel : Nat
  nextChan : Nat
  pendingNull : List Nat
  transportSet : Bool
deriving DecidableEq

/-- Wrap-around of Go's `int32` arithmetic. -/
def wrap32 (x : Int) : Int := (x + 2147483648) % 4294967296 - 2147483648

/-- `UpdateSeqNo` from network.go lines 105 to 111: `m.seqNo += 2` on the
`int32` counter, returning the new value. -/
def UpdateSeqNo (m : MTProto) : Int × MTProto :=
  (wrap32 (m.seqNo + 2), { m with seqNo := wrap32 (m.seqNo + 2) })

/-- `getRespChannel` from network.go lines 80 to 85: the shared service
channel in service mode, otherwise a fresh channel. -/
def getRespChannel (m : MTProto) : Nat :=
  if m.serviceModeActivated then m.serviceChannel else m.nextChan

structure WireMsg where
  encryptedEnv : Bool
  msg : List Nat
  msgID : Int
  authKeyHash : List Nat
  requireAck : Bool
  seqNo : Int
deriving DecidableEq

inductive SendErr where
  | marshalFailed
  | notConnected
  | writeFailed
deriving DecidableEq

structure SendOk where
  resp : Nat
  syntheticNull : Bool
  wire : WireMsg
deriving DecidableEq

/-- `sendPacket` from network.go lines 17 to 67.  `candidate` is the
clock-derived input of `utils.GenerateMessageId`; `writeOk` is the outcome of
the external `transport.WriteMsg` byte sink.  The mutated session state is
returned alongside the result, also on the error paths, exactly as the Go
method leaves `m` mutated when it returns an error. -/
def sendPacket (m : MTProto) (request : TLObject) (expectedTypes : List Nat)
    (candidate : Int) (writeOk : Bool) : Except SendErr SendOk × MTProto :=
  match tlMarshal request with
  | .error _ => (.error .marshalFailed, m)
  | .ok msg =>
    let msgID := GenerateMessageId m.lastMessageID candidate
    let et := if expectedTypes.isEmpty then m.expectedTypes
              else alInsert m.expectedTypes msgID expectedTypes
    let resp := getRespChannel m
    let nullable := isNullableResponse request
    let m1 : MTProto :=
      { m with
        lastMessageID := msgID
        expectedTypes := et
        nextChan := if m.serviceModeActivated then m.nextChan else m.nextChan + 1
        responseChannels := if nullable then m.responseChannels
                            else alInsert m.responseChannels msgID resp
        pendingNull := if nullable then m.pendingNull ++ [resp] else m.pendingNull }
    let sq := UpdateSeqNo m1
    let seqNoWire := if m1.encrypted then sq.1 else 0
    let result : Except SendErr SendOk :=
      if !m1.transportSet then .error .notConnected
      else if !writeOk then .error .writeFailed
      else .ok { resp := resp, syntheticNull := nullable,
                 wire := { encryptedEnv := m1.encrypted, msg := msg, msgID := msgID,
                           authKeyHash := if m1.encrypted then m1.authKeyHash else [],
                           requireAck := MessageRequireToAck request,
                           seqNo := seqNoWire } }
    (result, sq.2)

/-- The state left behind by `sendPacket`, spelled out field by field. -/
theorem sendPacket_snd (m : MTProto) (r : TLObject) (ts : List Nat) (cand : Int)
    (w : Bool) :
    (sendPacket m r ts cand w).2 =
      { m with
        lastMessageID := GenerateMessageId m.lastMessageID cand
        expectedTypes := if ts.isEmpty then m.expectedTypes
                         else alInsert m.expectedTypes (GenerateMessageId m.lastMessageID cand) ts
        nextChan := if m.serviceModeActivated then m.nextChan else m.nextChan + 1
        responseChannels := if isNullableResponse r then m.responseChannels
                            else alInsert m.responseChannels
                              (GenerateMessageId m.lastMessageID cand) (getRespChannel m)
        pendingNull := if isNullableResponse r then m.pendingNull ++ [getRespChannel m]
                       else m.pendingNull
        seqNo := wrap32 (m.seqNo + 2) } := rfl

/-- The result of `sendPacket` on the success path. -/
theorem sendPacket_fst_ok (m : MTProto) (r : TLObject) (ts : List Nat) (cand : Int)
    (htr : m.transportSet = true) :
    (sendPacket m r ts cand true).1 =
      .ok { resp := getRespChannel m
            syntheticNull := isNullableResponse r
            wire := { encryptedEnv := m.encrypted, msg := tlEncode r
                      msgID := GenerateMessageId m.lastMessageID cand
                      authKeyHash := if m.encrypted then m.authKeyHash else []
                      requireAck := MessageRequireToAck r
                      seqNo := if m.encrypted then wrap32 (m.seqNo + 2) else 0 } } := by
  simp [sendPacket, tlMarshal, UpdateSeqNo, htr]

/-- The result of `sendPacket` when no transport is configured. -/
theorem sendPacket_fst_noTransport (m : MTProto) (r : TLObject) (ts : List Nat)
    (cand : Int) (w : Bool) (htr : m.transportSet = false) :
    (sendPacket m r ts cand w).1 = .error .notConnected := by
  simp [sendPacket, tlMarshal, htr]

/-! ### Inbound router -/

inductive RouterErr where
  | unknownMessageId (msgID : Int)
deriving DecidableEq

/-- A value sent into a waiting reply channel. -/
structure Delivery where
  chan : Nat
  value : TLObject
deriving DecidableEq

/-- `writeRPCResponse` from network.go lines 69 to 78: look the message ID up
in `responseChannels`; if absent fail; otherwise send the decoded object into
the channel and delete both the channel entry and the expected-types entry. -/
def writeRPCResponse (m : MTProto) (msgID : Int) (data : TLObject) :
    Except RouterErr Delivery × MTProto :=
  match alLookup m.responseChannels msgID with
  | none => (.error (.unknownMessageId msgID), m)
  | some v =>
      (.ok { chan := v, value := data },
       { m with responseChannels := alErase m.responseChannels msgID,
                expectedTypes := alErase m.expectedTypes msgID })

/-! ### Decimal strings: `strconv.Itoa`, `strings.HasPrefix`, `strconv.Atoi`
as used by `GetInputPeer` for channel-offset normalization -/

def digitChar (d : Nat) : Char := Char.ofNat (48 + d)

def charDigit (c : Char) : Nat := c.toNat - 48

/-- Most-significant-first decimal digits of `n`; the fuel argument makes the
recursion structural and is always instantiated with `n` itself. -/
def natToCharsAux : Nat → Nat → List Char
  | 0, _ => []
  | fuel + 1, n => if n = 0 then [] else natToCharsAux fuel (n / 10) ++ [digitChar (n % 10)]

/-- Decimal representation of a natural number, as `strconv.Itoa` renders it. -/
def natToChars (n : Nat) : List Char :=
  if n = 0 then ['0'] else natToCharsAux n n

/-- `strconv.Itoa` on an `int64` value (sign then decimal digits). -/
def itoa (i : Int) : List Char :=
  if i < 0 then '-' :: natToChars i.natAbs else natToChars i.toNat

/-- Value of a most-significant-first digit string. -/
def digitsVal (s : List Char) : Nat :=
  s.foldl (fun acc c => 10 * acc + charDigit c) 0

def atoiNat (s : List Char) : Option Nat :=
  if s.isEmpty then none
  else if s.all Char.isDigit then some (digitsVal s) else none

/-- `strconv.Atoi`: optional sign then a nonempty digit string.  (The overflow
rejection of the Go function is not reachable from `GetInputPeer`, whose
inputs come from `strconv.Itoa` of an `int64`.) -/
def atoi (s : List Char) : Option Int :=
  match s with
  | [] => none
  | c :: rest =>
    if c = '-' then (atoiNat rest).map (fun n => -(Int.ofNat n))
    else if c = '+' then (atoiNat rest).map (fun n => Int.ofNat n)
    else (atoiNat (c :: rest)).map (fun n => Int.ofNat n)

/-- The literal prefix checked on cache.go line 178. -/
def neg100 : List Char := ['-', '1', '0', '0']

/-- `strings.HasPrefix` on character lists. -/
def hasPrefixChars : List Char → List Char → Bool
  | [], _ => true
  | _ :: _, [] => false
  | p :: ps, c :: cs => if p = c then hasPrefixChars ps cs else false

/-! ### Entity cache data model (telegram/cache.go) -/

/-- A cached user record; `rest` stands for the remaining fields of the Go
`UserObj` that the cache stores but never inspects. -/
structure UserObj where
  ID : Int
  AccessHash : Int
  rest : Nat
deriving DecidableEq

structure ChatObj where
  ID : Int
  rest : Nat
deriving DecidableEq

structure Channel where
  ID : Int
  AccessHash : Int
  rest : Nat
deriving DecidableEq

structure InputUserObj where
  UserID : Int
  AccessHash : Int
deriving DecidableEq

structure InputChannelObj where
  ChannelID : Int
  AccessHash : Int
deriving DecidableEq

/-- The peer-handle index: three maps from entity ID to access hash. -/
structure InputPeerCache where
  InputChannels : List (Int × Int)
  InputUsers : List (Int × Int)
  InputChats : List (Int × Int)
deriving DecidableEq

/-- The `CACHE` store.  `journal` holds the bytes of the `cache.journal` file;
the export/import operations never touch it. -/
structure CACHE where
  chats : List (Int × ChatObj)
  users : List (Int × UserObj)
  channels : List (Int × Channel)
  InputPeers : InputPeerCache
  journal : List Int
deriving DecidableEq

inductive CacheErr where
  | atoiError
  | peerNotFound (id : Int)
  | noUserPeer (id : Int)
  | noChannelPeer (id : Int)
deriving DecidableEq

instance {ε α : Type} [DecidableEq ε] [DecidableEq α] : DecidableEq (Except ε α) :=
  fun x y =>
    match x, y with
    | .ok a, .ok b =>
      if h : a = b then .isTrue (by rw [h]) else .isFalse (fun hh => h (Except.ok.inj hh))
    | .error a, .error b =>
      if h : a = b then .isTrue (by rw [h]) else .isFalse (fun hh => h (Except.error.inj hh))
    | .ok _, .error _ => .isFalse (fun hh => Except.noConfusion hh)
    | .error _, .ok _ => .isFalse (fun hh => Except.noConfusion hh)

/-- The typed peer references returned by `GetInputPeer`: `InputPeerUser`,
`InputPeerChat` (no access hash), `InputPeerChannel`. -/
inductive InputPeer where
  | user (userID accessHash : Int)
  | chat (chatID : Int)
  | channel (channelID accessHash : Int)
deriving DecidableEq

/-- Normalization of a possibly channel-offset-encoded peer ID, cache.go lines
177 to 187: when the decimal rendering starts with the characters `-100`, strip
them and re-parse the remainder. -/
def normalizePeerID (peerID : Int) : Except CacheErr Int :=
  if hasPrefixChars neg100 (itoa peerID) then
    match atoi ((itoa peerID).drop 4) with
    | none => .error .atoiError
    | some v => .ok v
  else .ok peerID

/-- `getUserPeer` from cache.go lines 158 to 165: scan the user index for the
key. -/
def getUserPeer (ip : InputPeerCache) (userID : Int) : Except CacheErr InputUserObj :=
  match alLookup ip.InputUsers userID with
  | some h => .ok { UserID := userID, AccessHash := h }
  | none => .error (.noUserPeer userID)

/-- `getChannelPeer` from cache.go lines 167 to 174. -/
def getChannelPeer (ip : InputPeerCache) (channelID : Int) : Except CacheErr InputChannelObj :=
  match alLookup ip.InputChannels channelID with
  | some h => .ok { ChannelID := channelID, AccessHash := h }
  | none => .error (.noChannelPeer channelID)

/-- `GetInputPeer` from cache.go lines 176 to 206: normalize the ID, then
probe the user index, the chat index and the channel index in that order. -/
def GetInputPeer (c : CACHE) (peerID : Int) : Except CacheErr InputPeer :=
  match normalizePeerID peerID with
  | .error e => .error e
  | .ok pid =>
    match alLookup c.InputPeers.InputUsers pid with
    | some h => .ok (.user pid h)
    | none =>
      match alLookup c.InputPeers.InputChats pid with
      | some _ => .ok (.chat pid)
      | none =>
        match alLookup c.InputPeers.InputChannels pid with
        | some h => .ok (.channel pid h)
        | none => .error (.peerNotFound pid)

/-- A delegated fetch request issued through the protocol layer on a cache
miss. -/
inductive FetchReq where
  | usersGetUsers (peer : InputUserObj)
  | channelsGetChannels (peer : InputChannelObj)
  | messagesGetChats (chatID : Int)
deriving DecidableEq

/-- Observable outcome of a cache lookup, up to the point where control would
pass to the external protocol layer: served from the record map, a delegated
fetch about to be issued, or a failure with no fetch issued. -/
inductive LookupOutcome (α : Type) where
  | cached (a : α)
  | fetch (req : FetchReq)
  | failed (e : CacheErr)
deriving DecidableEq

def LookupOutcome.isFailed {α : Type} : LookupOutcome α → Bool
  | .failed _ => true
  | _ => false

/-- `getUserFromCache` from cache.go lines 210 to 234: scan the record map for
a matching ID; on a miss resolve a user peer handle and issue
`UsersGetUsers`. -/
def getUserFromCache (c : CACHE) (userID : Int) : LookupOutcome UserObj :=
  match (c.users.map Prod.snd).find? (fun u => decide (u.ID = userID)) with
  | some u => .cached u
  | none =>
    match getUserPeer c.InputPeers userID with
    | .error e => .failed e
    | .ok peer => .fetch (.usersGetUsers peer)

/-- `getChannelFromCache` from cache.go lines 236 to 265. -/
def getChannelFromCache (c : CACHE) (channelID : Int) : LookupOutcome Channel :=
  match (c.channels.map Prod.snd).find? (fun ch => decide (ch.ID = channelID)) with
  | some ch => .cached ch
  | none =>
    match getChannelPeer c.InputPeers channelID with
    | .error e => .failed e
    | .ok peer => .fetch (.channelsGetChannels peer)

/-- `getChatFromCache` from cache.go lines 267 to 291: scan the record map; on
a miss issue `MessagesGetChats` directly, without consulting the peer-handle
index. -/
def getChatFromCache (c : CACHE) (chatID : Int) : LookupOutcome ChatObj :=
  match (c.chats.map Prod.snd).find? (fun ch => decide (ch.ID = chatID)) with
  | some ch => .cached ch
  | none => .fetch (.messagesGetChats chatID)

/-- `Client.GetUser`, cache.go lines 295 to 301. -/
def GetUser (c : CACHE) (userID : Int) : LookupOutcome UserObj :=
  getUserFromCache c userID

/-- `Client.GetChannel`, cache.go lines 303 to 309. -/
def GetChannel (c : CACHE) (channelID : Int) : LookupOutcome Channel :=
  getChannelFromCache c channelID

/-- `Client.GetChat`, cache.go lines 311 to 317. -/
def GetChat (c : CACHE) (chatID : Int) : LookupOutcome ChatObj :=
  getChatFromCache c chatID

/-- `UpdateUser` from cache.go lines 321 to 327. -/
def UpdateUser (c : CACHE) (user : UserObj) : CACHE :=
  { c with users := alInsert c.users user.ID user,
           InputPeers := { c.InputPeers with
             InputUsers := alInsert c.InputPeers.InputUsers user.ID user.AccessHash } }

/-- `UpdateChannel` from cache.go lines 329 to 335. -/
def UpdateChannel (c : CACHE) (channel : Channel) : CACHE :=
  { c with channels := alInsert c.channels channel.ID channel,
           InputPeers := { c.InputPeers with
             InputChannels := alInsert c.InputPeers.InputChannels channel.ID channel.AccessHash } }

/-- `UpdateChat` from cache.go lines 337 to 343; note the index stores the
chat ID itself, not an access hash. -/
def UpdateChat (c : CACHE) (chat : ChatObj) : CACHE :=
  { c with chats := alInsert c.chats chat.ID chat,
           InputPeers := { c.InputPeers with
             InputChats := alInsert c.InputPeers.InputChats chat.ID chat.ID } }

/-! ### Export/import of the peer-handle index

`ExportJSON`/`ImportJSON` delegate the byte encoding to the external
`encoding/json` library (an opaque lossless codec per spec section 1); it is
embedded as a concrete length-prefixed flat encoding of the three maps, with
`ImportJSON` merging the decoded entries into the existing maps exactly as
`json.Unmarshal` does on a non-nil Go map. -/

def pairsFlat (l : List (Int × Int)) : List Int :=
  l.flatMap (fun p => [p.1, p.2])

def encodePairs (l : List (Int × Int)) : List Int :=
  (l.length : Int) :: pairsFlat l

def decodePairsN : Nat → List Int → Option (List (Int × Int) × List Int)
  | 0, rest => some ([], rest)
  | n + 1, a :: b :: rest =>
    match decodePairsN n rest with
    | some (l, r) => some ((a, b) :: l, r)
    | none => none
  | _ + 1, [] => none
  | _ + 1, [_] => none

def decodePairs (data : List Int) : Option (List (Int × Int) × List Int) :=
  match data with
  | [] => none
  | n :: rest => if 0 ≤ n then decodePairsN n.toNat rest else none

def marshalInputPeers (ip : InputPeerCache) : List Int :=
  encodePairs ip.InputChannels ++ encodePairs ip.InputUsers ++ encodePairs ip.InputChats

def unmarshalInputPeers (data : List Int) : Option InputPeerCache :=
  match decodePairs data with
  | none => none
  | some (chans, r1) =>
    match decodePairs r1 with
    | none => none
    | some (users, r2) =>
      match decodePairs r2 with
      | none => none
      | some (chats, r3) =>
        if r3.isEmpty then some { InputChannels := chans, InputUsers := users, InputChats := chats }
        else none

/-- `ExportJSON` from cache.go lines 109 to 114: serialize `InputPeers`
alone. -/
def ExportJSON (c : CACHE) : List Int :=
  marshalInputPeers c.InputPeers

def mergePairs (base news : List (Int × Int)) : List (Int × Int) :=
  news.foldl (fun acc p => alInsert acc p.1 p.2) base

/-- `ImportJSON` from cache.go lines 116 to 121: deserialize into the existing
`InputPeers` maps (`json.Unmarshal` merges into a non-nil map). -/
def ImportJSON (c : CACHE) (data : List Int) : Option CACHE :=
  match unmarshalInputPeers data with
  | none => none
  | some ip =>
    some { c with InputPeers := {
      InputChannels := mergePairs c.InputPeers.InputChannels ip.InputChannels,
      InputUsers := mergePairs c.InputPeers.InputUsers ip.InputUsers,
      InputChats := mergePairs c.InputPeers.InputChats ip.InputChats } }

/-- Clearing the in-memory cache: a fresh `NewCache` state (cache.go lines
125 to 141), with the on-disk journal bytes untouched. -/
def clearCache (c : CACHE) : CACHE :=
  { chats := [], users := [], channels := [],
    InputPeers := { InputChannels := [], InputUsers := [], InputChats := [] },
    journal := c.journal }

/-- Well-formedness of the peer-handle index as the image of a Go map: no
duplicate keys. -/
def ipcWF (ip : InputPeerCache) : Prop :=
  (ip.InputChannels.map Prod.fst).Nodup ∧ (ip.InputUsers.map Prod.fst).Nodup ∧
    (ip.InputChats.map Prod.fst).Nodup

instance (ip : InputPeerCache) : Decidable (ipcWF ip) := by
  unfold ipcWF; infer_instance

/-- The entity ID is present in exactly one of the three peer-handle
indexes. -/
def inExactlyOneIndex (ip : InputPeerCache) (id : Int) : Bool :=
  ((alLookup ip.InputUsers id).isSome && (alLookup ip.InputChats id).isNone
      && (alLookup ip.InputChannels id).isNone)
    || ((alLookup ip.InputUsers id).isNone && (alLookup ip.InputChats id).isSome
      && (alLookup ip.InputChannels id).isNone)
    || ((alLookup ip.InputUsers id).isNone && (alLookup ip.InputChats id).isNone
      && (alLookup ip.InputChannels id).isSome)

/-! ### Facts about the decimal-string machinery -/

theorem charDigit_digitChar : ∀ d < 10, charDigit (digitChar d) = d := by decide

theorem isDigit_digitChar : ∀ d < 10, (digitChar d).isDigit = true := by decide

theorem digitChar_ne_minus : ∀ d < 10, digitChar d ≠ '-' := by decide

theorem digitChar_ne_plus : ∀ d < 10, digitChar d ≠ '+' := by decide

theorem natToCharsAux_mem (fuel : Nat) : ∀ (n : Nat) (x : Char),
    x ∈ natToCharsAux fuel n → ∃ d, d < 10 ∧ x = digitChar d := by
  induction fuel with
  | zero => intro n x hx; simp [natToCharsAux] at hx
  | succ fuel ih =>
    intro n x hx
    by_cases hn : n = 0
    · rw [natToCharsAux, if_pos hn] at hx
      simp at hx
    · rw [natToCharsAux, if_neg hn] at hx
      rcases List.mem_append.mp hx with hx | hx
      · exact ih _ x hx
      · refine ⟨n % 10, Nat.mod_lt _ (by norm_num), ?_⟩
        simpa using hx

theorem natToChars_mem (n : Nat) (x : Char) (hx : x ∈ natToChars n) :
    ∃ d, d < 10 ∧ x = digitChar d := by
  by_cases hn : n = 0
  · rw [natToChars, if_pos hn] at hx
    refine ⟨0, by norm_num, ?_⟩
    simp at hx
    rw [hx]; rfl
  · rw [natToChars, if_neg hn] at hx
    exact natToCharsAux_mem n n x hx

theorem natToChars_ne_nil (n : Nat) : natToChars n ≠ [] := by
  by_cases hn : n = 0
  · simp [natToChars, hn]
  · rw [natToChars, if_neg hn]
    obtain ⟨f, rfl⟩ : ∃ f, n = f + 1 := ⟨n - 1, by omega⟩
    rw [natToCharsAux, if_neg hn]
    simp

theorem digitsVal_append (l : List Char) (c : Char) :
    digitsVal (l ++ [c]) = 10 * digitsVal l + charDigit c := by
  simp [digitsVal, List.foldl_append]

theorem digitsVal_natToCharsAux (fuel : Nat) : ∀ n : Nat, n ≤ fuel →
    digitsVal (natToCharsAux fuel n) = n := by
  induction fuel with
  | zero =>
    intro n h
    interval_cases n
    rfl
  | succ fuel ih =>
    intro n h
    by_cases hn : n = 0
    · rw [natToCharsAux, if_pos hn, hn]; rfl
    · rw [natToCharsAux, if_neg hn, digitsVal_append]
      have hdiv : n / 10 ≤ fuel := by
        have := Nat.div_lt_self (Nat.pos_of_ne_zero hn) (by norm_num : 1 < 10)
        omega
      rw [ih _ hdiv, charDigit_digitChar _ (Nat.mod_lt _ (by norm_num))]
      omega

theorem digitsVal_natToChars (n : Nat) : digitsVal (natToChars n) = n := by
  by_cases hn : n = 0
  · rw [natToChars, if_pos hn, hn]; rfl
  · rw [natToChars, if_neg hn]
    exact digitsVal_natToCharsAux n n le_rfl

theorem all_isDigit_natToChars (n : Nat) : (natToChars n).all Char.isDigit = true := by
  rw [List.all_eq_true]
  intro x hx
  obtain ⟨d, hd, rfl⟩ := natToChars_mem n x hx
  exact isDigit_digitChar d hd

theorem atoiNat_natToChars (n : Nat) : atoiNat (natToChars n) = some n := by
  rw [atoiNat]
  rw [if_neg (by simpa using natToChars_ne_nil n)]
  rw [if_pos (all_isDigit_natToChars n), digitsVal_natToChars]

theorem atoi_natToChars (n : Nat) : atoi (natToChars n) = some (Int.ofNat n) := by
  obtain ⟨c, t, hct⟩ := List.exists_cons_of_ne_nil (natToChars_ne_nil n)
  obtain ⟨d, hd, hc⟩ := natToChars_mem n c (by rw [hct]; exact List.mem_cons_self c t)
  have h1 : ¬ (c = '-') := by rw [hc]; exact digitChar_ne_minus d hd
  have h2 : ¬ (c = '+') := by rw [hc]; exact digitChar_ne_plus d hd
  rw [hct]
  show (if c = '-' then (atoiNat t).map (fun n => -(Int.ofNat n))
        else if c = '+' then (atoiNat t).map (fun n => Int.ofNat n)
        else (atoiNat (c :: t)).map (fun n => Int.ofNat n)) = some (Int.ofNat n)
  rw [if_neg h1, if_neg h2, ← hct, atoiNat_natToChars]
  rfl

theorem hasPrefixChars_self_append (p s : List Char) :
    hasPrefixChars p (p ++ s) = true := by
  induction p with
  | nil => rfl
  | cons c t ih => simpa [hasPrefixChars] using ih

theorem hasPrefixChars_neg100_natToChars (n : Nat) :
    hasPrefixChars neg100 (natToChars n) = false := by
  obtain ⟨c, t, hct⟩ := List.exists_cons_of_ne_nil (natToChars_ne_nil n)
  obtain ⟨d, hd, hc⟩ := natToChars_mem n c (by rw [hct]; exact List.mem_cons_self c t)
  rw [hct]
  show (if '-' = c then hasPrefixChars ['1', '0', '0'] t else false) = false
  rw [if_neg]
  intro hEq
  exact digitChar_ne_minus d hd (hc ▸ hEq.symm)

theorem itoa_pos (i : Int) (h : 0 < i) : itoa i = natToChars i.toNat := by
  rw [itoa, if_neg (by omega)]

theorem normalizePeerID_pos (id : Int) (h : 0 < id) : normalizePeerID id = .ok id := by
  rw [normalizePeerID, itoa_pos id h, if_neg]
  rw [hasPrefixChars_neg100_natToChars]
  simp

theorem normalizePeerID_enc (e id : Int) (hid : 0 < id)
    (henc : itoa e = neg100 ++ itoa id) : normalizePeerID e = .ok id := by
  rw [normalizePeerID, henc, if_pos (by rw [hasPrefixChars_self_append])]
  have hdrop : (neg100 ++ itoa id).drop 4 = itoa id := by simp [neg100]
  rw [hdrop, itoa_pos id hid, atoi_natToChars]
  show Except.ok ((id.toNat : Nat) : Int) = Except.ok id
  rw [Int.toNat_of_nonneg hid.le]

/-! ### Round-trip of the export/import codec and map merging -/

theorem decodePairsN_pairsFlat (l : List (Int × Int)) (rest : List Int) :
    decodePairsN l.length (pairsFlat l ++ rest) = some (l, rest) := by
  induction l with
  | nil => rfl
  | cons p t ih =>
    obtain ⟨a, b⟩ := p
    show decodePairsN (t.length + 1) (pairsFlat ((a, b) :: t) ++ rest) = _
    have hflat : pairsFlat ((a, b) :: t) ++ rest = a :: b :: (pairsFlat t ++ rest) := by
      simp [pairsFlat]
    rw [hflat]
    show (match decodePairsN t.length (pairsFlat t ++ rest) with
          | some (l, r) => some ((a, b) :: l, r)
          | none => none) = _
    rw [ih]

theorem decodePairs_encodePairs (l : List (Int × Int)) (rest : List Int) :
    decodePairs (encodePairs l ++ rest) = some (l, rest) := by
  show decodePairs ((l.length : Int) :: (pairsFlat l ++ rest)) = _
  rw [decodePairs]
  rw [if_pos (by positivity)]
  have : ((l.length : Int)).toNat = l.length := by omega
  rw [this]
  exact decodePairsN_pairsFlat l rest

theorem decodePairs_encodePairs_nil (l : List (Int × Int)) :
    decodePairs (encodePairs l) = some (l, []) := by
  conv_lhs => rw [← List.append_nil (encodePairs l)]
  exact decodePairs_encodePairs l []

theorem unmarshal_marshal (ip : InputPeerCache) :
    unmarshalInputPeers (marshalInputPeers ip) = some ip := by
  rw [marshalInputPeers, List.append_assoc, unmarshalInputPeers]
  simp only [decodePairs_encodePairs, decodePairs_encodePairs_nil, List.isEmpty_nil, if_true]

theorem mergePairs_cons (base : List (Int × Int)) (p : Int × Int) (t : List (Int × Int)) :
    mergePairs base (p :: t) = mergePairs (alInsert base p.1 p.2) t := rfl

theorem alLookup_mergePairs_not_mem (l : List (Int × Int)) : ∀ (base : List (Int × Int))
    (k : Int), k ∉ l.map Prod.fst → alLookup (mergePairs base l) k = alLookup base k := by
  induction l with
  | nil => intro base k _; rfl
  | cons p t ih =>
    intro base k h
    obtain ⟨pk, pv⟩ := p
    simp only [List.map_cons, List.mem_cons] at h
    push_neg at h
    rw [mergePairs_cons, ih _ k h.2]
    exact alLookup_alInsert_ne base pk k pv (Ne.symm h.1)

theorem alLookup_mergePairs_nodup (l : List (Int × Int)) : ∀ (base : List (Int × Int))
    (k v : Int), (l.map Prod.fst).Nodup → alLookup l k = some v →
    alLookup (mergePairs base l) k = some v := by
  induction l with
  | nil => intro base k v _ hv; simp [alLookup] at hv
  | cons p t ih =>
    intro base k v hnd hv
    obtain ⟨pk, pv⟩ := p
    simp only [List.map_cons, List.nodup_cons] at hnd
    rw [mergePairs_cons]
    by_cases hk : pk = k
    · subst hk
      simp only [alLookup, if_pos rfl] at hv
      rw [alLookup_mergePairs_not_mem t _ pk hnd.1, alLookup_alInsert_self]
      exact hv ▸ rfl
    · simp only [alLookup, if_neg hk] at hv
      exact ih _ k v hnd.2 hv

theorem alLookup_mergePairs_nil (l : List (Int × Int)) (k : Int)
    (hnd : (l.map Prod.fst).Nodup) :
    alLookup (mergePairs [] l) k = alLookup l k := by
  cases hv : alLookup l k with
  | none =>
    rw [alLookup_mergePairs_not_mem l [] k ((alLookup_eq_none_iff l k).mp hv)]
    rfl
  | some v => exact alLookup_mergePairs_nodup l [] k v hnd hv

/-! ### Sequences of sendPacket calls -/

/-- Iterated `sendPacket` with successful transport writes; each entry gives a
request, its expected-type hints and the clock candidate for the message ID. -/
def sendPacketSeq (m : MTProto) : List (TLObject × List Nat × Int) →
    List (Except SendErr SendOk) × MTProto
  | [] => ([], m)
  | (r, ts, cand) :: rest =>
    let p := sendPacket m r ts cand true
    let q := sendPacketSeq p.2 rest
    (p.1 :: q.1, q.2)

/-- The sequence numbers handed to the transport by a run of sends. -/
def wireSeqNos (rs : List (Except SendErr SendOk)) : List Int :=
  rs.filterMap fun r => match r with
    | .ok k => some k.wire.seqNo
    | .error _ => none

/-- The arithmetic progression s + 2, s + 4, ..., s + 2n. -/
def seqNosFrom (s : Int) : Nat → List Int
  | 0 => []
  | n + 1 => (s + 2) :: seqNosFrom (s + 2) n

theorem seqNosFrom_getElem (n : Nat) : ∀ (s : Int) (i : Nat), i < n →
    (seqNosFrom s n)[i]? = some (s + 2 * ((i : Int) + 1)) := by
  induction n with
  | zero => intro s i h; omega
  | succ n ih =>
    intro s i h
    cases i with
    | zero =>
      show (((s + 2) :: seqNosFrom (s + 2) n))[0]? = _
      simp
    | succ j =>
      show (((s + 2) :: seqNosFrom (s + 2) n))[j + 1]? = _
      rw [List.getElem?_cons_succ, ih (s + 2) j (by omega)]
      congr 1
      push_cast
      ring

theorem wireSeqNos_cons_ok (k : SendOk) (rs : List (Except SendErr SendOk)) :
    wireSeqNos (Except.ok k :: rs) = k.wire.seqNo :: wireSeqNos rs := by
  simp [wireSeqNos]

theorem wrap32_eq_self (x : Int) (h1 : -2147483648 ≤ x) (h2 : x < 2147483648) :
    wrap32 x = x := by
  unfold wrap32
  rw [Int.emod_eq_of_lt (by omega) (by omega)]
  omega

theorem sendPacketSeq_wireSeqNos (inputs : List (TLObject × List Nat × Int)) :
    ∀ m : MTProto, m.encrypted = true → m.transportSet = true →
    -2147483648 ≤ m.seqNo → m.seqNo + 2 * (inputs.length : Int) < 2147483648 →
    wireSeqNos (sendPacketSeq m inputs).1 = seqNosFrom m.seqNo inputs.length ∧
    (sendPacketSeq m inputs).2.seqNo = m.seqNo + 2 * (inputs.length : Int) ∧
    (sendPacketSeq m inputs).2.encrypted = true ∧
    (sendPacketSeq m inputs).2.transportSet = true := by
  induction inputs with
  | nil =>
    intro m henc htr _ _
    refine ⟨rfl, by simp [sendPacketSeq], henc, htr⟩
  | cons trip rest ih =>
    intro m henc htr hlo hhi
    obtain ⟨r, ts, cand⟩ := trip
    have hlenc : (((r, ts, cand) :: rest).length : Int) = (rest.length : Int) + 1 := by
      push_cast [List.length_cons]
      ring
    have hrl : (0 : Int) ≤ (rest.length : Int) := by positivity
    have hw : wrap32 (m.seqNo + 2) = m.seqNo + 2 :=
      wrap32_eq_self _ (by omega) (by omega)
    have hsnd := sendPacket_snd m r ts cand true
    have hseq1 : (sendPacket m r ts cand true).2.seqNo = m.seqNo + 2 := by
      rw [hsnd]; exact hw
    have henc1 : (sendPacket m r ts cand true).2.encrypted = true := by
      rw [hsnd]; exact henc
    have htr1 : (sendPacket m r ts cand true).2.transportSet = true := by
      rw [hsnd]; exact htr
    obtain ⟨ih1, ih2, ih3, ih4⟩ := ih (sendPacket m r ts cand true).2 henc1 htr1
      (by rw [hseq1]; omega) (by rw [hseq1]; omega)
    have hfst := sendPacket_fst_ok m r ts cand htr
    refine ⟨?_, ?_, ih3, ih4⟩
    · show wireSeqNos ((sendPacket m r ts cand true).1 ::
        (sendPacketSeq (sendPacket m r ts cand true).2 rest).1) = _
      rw [hfst, wireSeqNos_cons_ok]
      show (if m.encrypted = true then wrap32 (m.seqNo + 2) else 0) ::
        wireSeqNos (sendPacketSeq (sendPacket m r ts cand true).2 rest).1 =
        seqNosFrom m.seqNo ((r, ts, cand) :: rest).length
      rw [henc, if_pos rfl, hw, ih1, hseq1]
      rfl
    · show (sendPacketSeq (sendPacket m r ts cand true).2 rest).2.seqNo = _
      rw [ih2, hseq1, hlenc]
      ring

theorem sendPacket_fst_writeFailed (m : MTProto) (r : TLObject) (ts : List Nat)
    (cand : Int) (htr : m.transportSet = true) :
    (sendPacket m r ts cand false).1 = .error .writeFailed := by
  simp [sendPacket, tlMarshal, htr]

theorem writeRPCResponse_none (m : MTProto) (msgID : Int) (d : TLObject)
    (h : alLookup m.responseChannels msgID = none) :
    writeRPCResponse m msgID d = (.error (.unknownMessageId msgID), m) := by
  rw [writeRPCResponse, h]

theorem writeRPCResponse_some (m : MTProto) (msgID : Int) (d : TLObject) (ch : Nat)
    (h : alLookup m.responseChannels msgID = some ch) :
    writeRPCResponse m msgID d =
      (.ok { chan := ch, value := d },
       { m with responseChannels := alErase m.responseChannels msgID,
                expectedTypes := alErase m.expectedTypes msgID }) := by
  rw [writeRPCResponse, h]

/-! ### Concrete states used by the witnesses and counterexamples -/

def exMT : MTProto :=
  { lastMessageID := 0, seqNo := 0, encrypted := true, serviceModeActivated := false,
    authKeyHash := [9], sessionId := 1, serverSalt := 2, responseChannels := [],
    expectedTypes := [], serviceChannel := 0, nextChan := 1, pendingNull := [],
    transportSet := true }

def exMTplain : MTProto := { exMT with encrypted := false }

def exMTreg : MTProto := { exMT with responseChannels := [(7, 3)] }

def exMTnoTr : MTProto := { exMT with transportSet := false }

def exInputs : List (TLObject × List Nat × Int) :=
  [(.other 1, [], 10), (.other 2, [], 20), (.other 3, [], 30)]

def exCache : CACHE :=
  { chats := [(5, { ID := 5, rest := 0 })],
    users := [],
    channels := [],
    InputPeers := { InputChannels := [(777, 55)], InputUsers := [(1234, 99)],
                    InputChats := [(5, 5)] },
    journal := [1, 2, 3] }

def exEmptyCache : CACHE :=
  { chats := [], users := [], channels := [],
    InputPeers := { InputChannels := [], InputUsers := [], InputChats := [] },
    journal := [] }

/-! ### The claims -/

/-- C1 (amended): on one encrypted session with a configured transport,
starting from counter value seqNo0, a run of N submitted requests requiring
acknowledgment is assigned the wire sequence numbers seqNo0+2, seqNo0+4, ...,
seqNo0+2N and leaves the counter at seqNo0+2N; sending a plaintext/handshake
message emits 0 as the sequence number on the wire but nevertheless advances
the seqNo counter by 2 (it does not leave it unchanged). -/
theorem seqNo_assignment_c1 (m mp : MTProto) (inputs : List (TLObject × List Nat × Int))
    (r : TLObject) (ts : List Nat) (cand : Int) (w : Bool)
    (henc : m.encrypted = true) (htr : m.transportSet = true)
    (_hack : ∀ p ∈ inputs, MessageRequireToAck p.1 = true)
    (hlo : -2147483648 ≤ m.seqNo)
    (hhi : m.seqNo + 2 * (inputs.length : Int) < 2147483648)
    (hpenc : mp.encrypted = false)
    (hplo : -2147483648 ≤ mp.seqNo) (hphi : mp.seqNo + 2 < 2147483648) :
    wireSeqNos (sendPacketSeq m inputs).1 = seqNosFrom m.seqNo inputs.length ∧
    (∀ i : Nat, i < inputs.length →
      (wireSeqNos (sendPacketSeq m inputs).1)[i]? = some (m.seqNo + 2 * ((i : Int) + 1))) ∧
    (sendPacketSeq m inputs).2.seqNo = m.seqNo + 2 * (inputs.length : Int) ∧
    (sendPacket mp r ts cand w).2.seqNo = mp.seqNo + 2 ∧
    (∀ k, (sendPacket mp r ts cand w).1 = .ok k → k.wire.seqNo = 0) := by
  obtain ⟨h1, h2, _, _⟩ := sendPacketSeq_wireSeqNos inputs m henc htr hlo hhi
  refine ⟨h1, ?_, h2, ?_, ?_⟩
  · intro i hi
    rw [h1]
    exact seqNosFrom_getElem _ _ i hi
  · rw [sendPacket_snd]
    exact wrap32_eq_self _ (by omega) (by omega)
  · intro k hk
    cases htrp : mp.transportSet with
    | false =>
      rw [sendPacket_fst_noTransport mp r ts cand w htrp] at hk
      cases hk
    | true =>
      cases w with
      | false =>
        rw [sendPacket_fst_writeFailed mp r ts cand htrp] at hk
        cases hk
      | true =>
        rw [sendPacket_fst_ok mp r ts cand htrp] at hk
        injection hk with hk
        rw [← hk]
        show (if mp.encrypted = true then wrap32 (mp.seqNo + 2) else 0) = 0
        rw [hpenc]
        rfl

/-- C1 witness: three acknowledged requests on an encrypted session from
counter 0 get wire sequence numbers 2, 4, 6; a plaintext send from counter 0
moves the counter to 2. -/
theorem seqNo_assignment_c1_witness :
    wireSeqNos (sendPacketSeq exMT exInputs).1 = seqNosFrom exMT.seqNo exInputs.length ∧
    (wireSeqNos (sendPacketSeq exMT exInputs).1)[1]? =
      some (exMT.seqNo + 2 * (((1 : Nat) : Int) + 1)) ∧
    (sendPacketSeq exMT exInputs).2.seqNo = exMT.seqNo + 2 * (exInputs.length : Int) ∧
    (sendPacket exMTplain (.other 9) [] 5 true).2.seqNo = exMTplain.seqNo + 2 := by
  have h := seqNo_assignment_c1 exMT exMTplain exInputs (.other 9) [] 5 true rfl rfl
    (by decide) (by decide) (by decide) rfl (by decide) (by decide)
  exact ⟨h.1, h.2.1 1 (by decide), h.2.2.1, h.2.2.2.1⟩

/-- C1 counterexample: the claim states that a plaintext/handshake message
leaves the seqNo counter unchanged, but from counter 0 a plaintext send moves
the counter to 2 (line 55 of network.go calls UpdateSeqNo unconditionally). -/
theorem seqNo_plaintext_c1_cex :
    (sendPacket exMTplain (.other 9) [] 5 true).2.seqNo = 2 ∧
    exMTplain.seqNo = 0 ∧
    (sendPacket exMTplain (.other 9) [] 5 true).2.seqNo ≠ exMTplain.seqNo := by
  decide

/-- C2: every `sendPacket` call stores a message ID in `lastMessageID` that is
numerically strictly greater than the previous message ID generated on the
session, whatever the request, hints, clock candidate and transport outcome. -/
theorem lastMessageID_increasing_c2 (m : MTProto) (r : TLObject) (ts : List Nat)
    (cand : Int) (w : Bool) :
    m.lastMessageID < (sendPacket m r ts cand w).2.lastMessageID := by
  rw [sendPacket_snd]
  exact GenerateMessageId_gt m.lastMessageID cand

/-- C3: delivering once to a registered message ID fulfills the waiting reply
slot with the delivered value and removes both the reply-slot entry and the
expected-type entry, so a second delivery fails with the unknown-message-ID
error; delivering to an unregistered ID fails with the unknown-message-ID
error and leaves the state unchanged. -/
theorem writeRPCResponse_delivery_c3 (m : MTProto) (msgID : Int) (d d2 : TLObject) :
    (∀ ch, alLookup m.responseChannels msgID = some ch →
      (writeRPCResponse m msgID d).1 = .ok { chan := ch, value := d } ∧
      alLookup (writeRPCResponse m msgID d).2.responseChannels msgID = none ∧
      alLookup (writeRPCResponse m msgID d).2.expectedTypes msgID = none ∧
      (writeRPCResponse (writeRPCResponse m msgID d).2 msgID d2).1 =
        .error (.unknownMessageId msgID) ∧
      (writeRPCResponse (writeRPCResponse m msgID d).2 msgID d2).2 =
        (writeRPCResponse m msgID d).2) ∧
    (alLookup m.responseChannels msgID = none →
      (writeRPCResponse m msgID d).1 = .error (.unknownMessageId msgID) ∧
      (writeRPCResponse m msgID d).2 = m) := by
  constructor
  · intro ch hch
    rw [writeRPCResponse_some m msgID d ch hch]
    have hsecond := writeRPCResponse_none
      { m with responseChannels := alErase m.responseChannels msgID,
               expectedTypes := alErase m.expectedTypes msgID } msgID d2
      (alLookup_alErase_self m.responseChannels msgID)
    refine ⟨rfl, alLookup_alErase_self m.responseChannels msgID,
      alLookup_alErase_self m.expectedTypes msgID, ?_, ?_⟩
    · show (writeRPCResponse
        { m with responseChannels := alErase m.responseChannels msgID,
                 expectedTypes := alErase m.expectedTypes msgID } msgID d2).1 = _
      rw [hsecond]
    · show (writeRPCResponse
        { m with responseChannels := alErase m.responseChannels msgID,
                 expectedTypes := alErase m.expectedTypes msgID } msgID d2).2 = _
      rw [hsecond]
  · intro hnone
    rw [writeRPCResponse_none m msgID d hnone]
    exact ⟨rfl, rfl⟩

/-- C3 witness: on a session with a reply slot registered under message ID 7,
the first delivery fulfills channel 3; delivering to the unregistered ID 8 on
another session fails and leaves the state unchanged. -/
theorem writeRPCResponse_delivery_c3_witness :
    (alLookup exMTreg.responseChannels 7 = some 3 ∧
      (writeRPCResponse exMTreg 7 .null).1 = .ok { chan := 3, value := .null } ∧
      (writeRPCResponse (writeRPCResponse exMTreg 7 .null).2 7 (.other 1)).1 =
        .error (.unknownMessageId 7)) ∧
    (alLookup exMT.responseChannels 8 = none ∧
      (writeRPCResponse exMT 8 .null).1 = .error (.unknownMessageId 8) ∧
      (writeRPCResponse exMT 8 .null).2 = exMT) := by
  have h1 := (writeRPCResponse_delivery_c3 exMTreg 7 .null (.other 1)).1 3 (by decide)
  have h2 := (writeRPCResponse_delivery_c3 exMT 8 .null (.other 1)).2 (by decide)
  exact ⟨⟨by decide, h1.1, h1.2.2.2.1⟩, ⟨by decide, h2.1, h2.2⟩⟩

/-- C4 (amended): for an entity ID with no cached record and no entry in the
corresponding peer-handle index, getUser and getChannel fail with a not-found
error without issuing any delegated fetch; getChat, by contrast, issues a
delegated MessagesGetChats fetch on any record miss, regardless of the
peer-handle index. -/
theorem cacheMiss_noFetch_c4 (c : CACHE) (id : Int)
    (hu : (c.users.map Prod.snd).find? (fun u => decide (u.ID = id)) = none)
    (hup : alLookup c.InputPeers.InputUsers id = none)
    (hch : (c.channels.map Prod.snd).find? (fun ch => decide (ch.ID = id)) = none)
    (hchp : alLookup c.InputPeers.InputChannels id = none)
    (hct : (c.chats.map Prod.snd).find? (fun ch => decide (ch.ID = id)) = none) :
    GetUser c id = .failed (.noUserPeer id) ∧
    GetChannel c id = .failed (.noChannelPeer id) ∧
    GetChat c id = .fetch (.messagesGetChats id) := by
  refine ⟨?_, ?_, ?_⟩
  · simp only [GetUser, getUserFromCache, getUserPeer, hu, hup]
  · simp only [GetChannel, getChannelFromCache, getChannelPeer, hch, hchp]
  · simp only [GetChat, getChatFromCache, hct]

/-- C4 witness: on an empty cache, ID 1 has no record and no peer handle;
getUser and getChannel fail without a fetch and getChat fetches. -/
theorem cacheMiss_noFetch_c4_witness :
    GetUser exEmptyCache 1 = .failed (.noUserPeer 1) ∧
    GetChannel exEmptyCache 1 = .failed (.noChannelPeer 1) ∧
    GetChat exEmptyCache 1 = .fetch (.messagesGetChats 1) :=
  cacheMiss_noFetch_c4 exEmptyCache 1 (by decide) (by decide) (by decide) (by decide)
    (by decide)

/-- C4 counterexample: for chat ID 1, absent from both the record map and the
peer-handle index of the empty cache, the claim says the lookup fails with a
not-found error without a delegated fetch; getChat instead issues the
delegated MessagesGetChats fetch and does not fail. -/
theorem cacheMiss_noFetch_c4_cex :
    GetChat exEmptyCache 1 = .fetch (.messagesGetChats 1) ∧
    (GetChat exEmptyCache 1).isFailed = false := by
  decide

/-- C5: a channel-offset-encoded peer ID (decimal rendering `-100` followed by
the digits of the canonical positive ID) resolves through GetInputPeer to the
same peer reference as the bare canonical ID. -/
theorem offsetEncoding_roundtrip_c5 (c : CACHE) (e id : Int)
    (hid : 0 < id) (henc : itoa e = neg100 ++ itoa id)
    (_hone : inExactlyOneIndex c.InputPeers id = true) :
    GetInputPeer c e = GetInputPeer c id := by
  rw [GetInputPeer, GetInputPeer, normalizePeerID_enc e id hid henc,
    normalizePeerID_pos id hid]

/-- C5 witness: -1001234 is the offset-encoded form of 1234, which is present
only in the user index; both resolve to the same reference. -/
theorem offsetEncoding_roundtrip_c5_witness :
    (0 : Int) < 1234 ∧ itoa (-1001234) = neg100 ++ itoa 1234 ∧
    inExactlyOneIndex exCache.InputPeers 1234 = true ∧
    GetInputPeer exCache (-1001234) = GetInputPeer exCache 1234 :=
  ⟨by decide, by decide, by decide,
   offsetEncoding_roundtrip_c5 exCache (-1001234) 1234 (by decide) (by decide) (by decide)⟩

/-- C6 (amended): for acknowledgment-only or keep-alive requests (Pong,
MsgsAck, exactly the nullable kinds), sendPacket queues a synthetic no-content
value into the returned reply channel and registers no reply-slot entry for
the new message ID; an expected-type-hint entry is nevertheless recorded
whenever decode hints are supplied, for nullable requests too; every other
request kind gets a reply slot registered under the new message ID. -/
theorem nullable_noReplySlot_c6 (m : MTProto) (r : TLObject) (ts : List Nat)
    (cand : Int) (w : Bool) :
    (isNullableResponse r = true ↔ (r = .pong ∨ r = .msgsAck)) ∧
    (isNullableResponse r = true →
      (sendPacket m r ts cand w).2.responseChannels = m.responseChannels ∧
      (sendPacket m r ts cand w).2.pendingNull = m.pendingNull ++ [getRespChannel m]) ∧
    (isNullableResponse r = false →
      alLookup (sendPacket m r ts cand w).2.responseChannels
        (GenerateMessageId m.lastMessageID cand) = some (getRespChannel m) ∧
      (sendPacket m r ts cand w).2.pendingNull = m.pendingNull) ∧
    (ts.isEmpty = false →
      alLookup (sendPacket m r ts cand w).2.expectedTypes
        (GenerateMessageId m.lastMessageID cand) = some ts) := by
  refine ⟨?_, ?_, ?_, ?_⟩
  · cases r <;> simp [isNullableResponse]
  · intro hn
    rw [sendPacket_snd]
    constructor
    · show (if isNullableResponse r = true then m.responseChannels
            else alInsert m.responseChannels (GenerateMessageId m.lastMessageID cand)
              (getRespChannel m)) = m.responseChannels
      rw [hn, if_pos rfl]
    · show (if isNullableResponse r = true then m.pendingNull ++ [getRespChannel m]
            else m.pendingNull) = m.pendingNull ++ [getRespChannel m]
      rw [hn, if_pos rfl]
  · intro hn
    rw [sendPacket_snd]
    constructor
    · show alLookup (if isNullableResponse r = true then m.responseChannels
            else alInsert m.responseChannels (GenerateMessageId m.lastMessageID cand)
              (getRespChannel m)) (GenerateMessageId m.lastMessageID cand) = _
      rw [hn, if_neg (by simp)]
      exact alLookup_alInsert_self _ _ _
    · show (if isNullableResponse r = true then m.pendingNull ++ [getRespChannel m]
            else m.pendingNull) = m.pendingNull
      rw [hn, if_neg (by simp)]
  · intro hts
    rw [sendPacket_snd]
    show alLookup (if ts.isEmpty then m.expectedTypes
          else alInsert m.expectedTypes (GenerateMessageId m.lastMessageID cand) ts)
        (GenerateMessageId m.lastMessageID cand) = some ts
    rw [hts, if_neg (by simp)]
    exact alLookup_alInsert_self _ _ _

/-- C6 witness: a MsgsAck send leaves the reply-slot table unchanged and
queues a synthetic null into the fresh channel; an ordinary request gets its
reply slot registered under the new message ID. -/
theorem nullable_noReplySlot_c6_witness :
    (isNullableResponse .msgsAck = true ↔
      ((.msgsAck : TLObject) = .pong ∨ (.msgsAck : TLObject) = .msgsAck)) ∧
    ((sendPacket exMT .msgsAck [] 3 true).2.responseChannels = exMT.responseChannels ∧
      (sendPacket exMT .msgsAck [] 3 true).2.pendingNull =
        exMT.pendingNull ++ [getRespChannel exMT]) ∧
    (alLookup (sendPacket exMT (.other 4) [] 3 true).2.responseChannels
        (GenerateMessageId exMT.lastMessageID 3) = some (getRespChannel exMT) ∧
      (sendPacket exMT (.other 4) [] 3 true).2.pendingNull = exMT.pendingNull) := by
  have ha := nullable_noReplySlot_c6 exMT .msgsAck [] 3 true
  have hb := nullable_noReplySlot_c6 exMT (.other 4) [] 3 true
  exact ⟨ha.1, ha.2.1 (by decide), hb.2.2.1 (by decide)⟩

/-- C6 counterexample: the claim says a Pong registers no entry for the new
message ID in the Pending-Request Table, but a Pong submitted with a decode
hint does get an expected-type-hint entry registered under its new message ID
(the hint registration on line 32 of network.go precedes the nullable
check). -/
theorem nullable_noReplySlot_c6_cex :
    isNullableResponse .pong = true ∧
    alLookup (sendPacket exMT .pong [5] 3 true).2.expectedTypes
      (GenerateMessageId exMT.lastMessageID 3) = some [5] := by
  decide

/-- C7: GetInputPeer probes the user index, then the chat index, then the
channel index; the first match is returned as a typed reference (chat without
access hash, user and channel with the stored access hash); when no index
contains the ID the lookup fails with the peer-not-found error. -/
theorem getInputPeer_probeOrder_c7 (c : CACHE) (pid : Int)
    (hn : normalizePeerID pid = .ok pid) :
    (∀ h, alLookup c.InputPeers.InputUsers pid = some h →
        GetInputPeer c pid = .ok (.user pid h)) ∧
    (alLookup c.InputPeers.InputUsers pid = none →
      (∀ h, alLookup c.InputPeers.InputChats pid = some h →
          GetInputPeer c pid = .ok (.chat pid)) ∧
      (alLookup c.InputPeers.InputChats pid = none →
        (∀ h, alLookup c.InputPeers.InputChannels pid = some h →
            GetInputPeer c pid = .ok (.channel pid h)) ∧
        (alLookup c.InputPeers.InputChannels pid = none →
          GetInputPeer c pid = .error (.peerNotFound pid)))) := by
  refine ⟨?_, ?_⟩
  · intro h hh
    simp only [GetInputPeer, hn, hh]
  · intro hu
    refine ⟨?_, ?_⟩
    · intro h hh
      simp only [GetInputPeer, hn, hu, hh]
    · intro hc
      refine ⟨?_, ?_⟩
      · intro h hh
        simp only [GetInputPeer, hn, hu, hc, hh]
      · intro hch
        simp only [GetInputPeer, hn, hu, hc, hch]

/-- C7 witness: on a cache whose indexes hold user 1234, chat 5 and channel
777, each resolves to its typed reference and 9999 fails. -/
theorem getInputPeer_probeOrder_c7_witness :
    normalizePeerID 1234 = .ok 1234 ∧
    GetInputPeer exCache 1234 = .ok (.user 1234 99) ∧
    GetInputPeer exCache 5 = .ok (.chat 5) ∧
    GetInputPeer exCache 777 = .ok (.channel 777 55) ∧
    GetInputPeer exCache 9999 = .error (.peerNotFound 9999) := by
  refine ⟨by decide, ?_, ?_, ?_, ?_⟩
  · exact (getInputPeer_probeOrder_c7 exCache 1234 (by decide)).1 99 (by decide)
  · exact ((getInputPeer_probeOrder_c7 exCache 5 (by decide)).2 (by decide)).1 5 (by decide)
  · exact (((getInputPeer_probeOrder_c7 exCache 777 (by decide)).2 (by decide)).2
      (by decide)).1 55 (by decide)
  · exact (((getInputPeer_probeOrder_c7 exCache 9999 (by decide)).2 (by decide)).2
      (by decide)).2 (by decide)

/-- C8: upserting a user and then looking the same ID up serves the cached
record without any delegated fetch, and GetInputPeer returns a user-kind
reference carrying the access hash set at upsert time. -/
theorem upsert_then_get_c8 (c : CACHE) (u : UserObj) (hid : 0 < u.ID) :
    GetUser (UpdateUser c u) u.ID = .cached u ∧
    GetInputPeer (UpdateUser c u) u.ID = .ok (.user u.ID u.AccessHash) := by
  constructor
  · show getUserFromCache (UpdateUser c u) u.ID = .cached u
    rw [getUserFromCache]
    have hfind : (((UpdateUser c u).users).map Prod.snd).find?
        (fun v => decide (v.ID = u.ID)) = some u := by
      show ((u :: (alErase c.users u.ID).map Prod.snd).find? (fun v => decide (v.ID = u.ID)))
        = some u
      rw [List.find?_cons_of_pos _ (by simp)]
    rw [hfind]
  · simp only [GetInputPeer, normalizePeerID_pos u.ID hid]
    have hins : alLookup (UpdateUser c u).InputPeers.InputUsers u.ID = some u.AccessHash :=
      alLookup_alInsert_self c.InputPeers.InputUsers u.ID u.AccessHash
    rw [hins]

/-- C8 witness: upserting user 7 with access hash 42 into an empty cache. -/
theorem upsert_then_get_c8_witness :
    GetUser (UpdateUser exEmptyCache { ID := 7, AccessHash := 42, rest := 1 }) 7 =
      .cached { ID := 7, AccessHash := 42, rest := 1 } ∧
    GetInputPeer (UpdateUser exEmptyCache { ID := 7, AccessHash := 42, rest := 1 }) 7 =
      .ok (.user 7 42) :=
  upsert_then_get_c8 exEmptyCache { ID := 7, AccessHash := 42, rest := 1 } (by decide)

/-- C9: exporting the peer-handle index, clearing the in-memory cache and
importing recovers exactly the same (ID, access-hash) associations in all
three index maps, leaves the record maps of the cleared cache empty, and never
touches the journal bytes. -/
theorem export_import_c9 (c : CACHE) (hwf : ipcWF c.InputPeers) :
    ∃ c2, ImportJSON (clearCache c) (ExportJSON c) = some c2 ∧
      (∀ k, alLookup c2.InputPeers.InputChannels k = alLookup c.InputPeers.InputChannels k) ∧
      (∀ k, alLookup c2.InputPeers.InputUsers k = alLookup c.InputPeers.InputUsers k) ∧
      (∀ k, alLookup c2.InputPeers.InputChats k = alLookup c.InputPeers.InputChats k) ∧
      c2.journal = c.journal ∧ c2.users = [] ∧ c2.chats = [] ∧ c2.channels = [] := by
  obtain ⟨h1, h2, h3⟩ := hwf
  refine ⟨{ clearCache c with InputPeers := {
      InputChannels := mergePairs [] c.InputPeers.InputChannels,
      InputUsers := mergePairs [] c.InputPeers.InputUsers,
      InputChats := mergePairs [] c.InputPeers.InputChats } },
    ?_, ?_, ?_, ?_, rfl, rfl, rfl, rfl⟩
  · rw [ImportJSON, ExportJSON, unmarshal_marshal]
    rfl
  · intro k
    exact alLookup_mergePairs_nil _ k h1
  · intro k
    exact alLookup_mergePairs_nil _ k h2
  · intro k
    exact alLookup_mergePairs_nil _ k h3

/-- C9 witness: the round trip succeeds on a cache holding one channel, one
user and one chat handle. -/
theorem export_import_c9_witness :
    ipcWF exCache.InputPeers ∧
    (ImportJSON (clearCache exCache) (ExportJSON exCache)).isSome = true := by
  obtain ⟨c2, hc2, _⟩ := export_import_c9 exCache (by decide)
  exact ⟨by decide, by rw [hc2]; rfl⟩

/-- C10: when no transport is configured, sendPacket returns the not-connected
error synchronously, yet the session state is already mutated: the message-ID
counter and the seqNo counter have advanced, and for non-nullable requests the
reply slot (and, when hints were supplied, the expected-type entry) registered
under the new message ID remain in place. -/
theorem notConnected_mutation_c10 (m : MTProto) (r : TLObject) (ts : List Nat)
    (cand : Int) (w : Bool) (htr : m.transportSet = false) :
    (sendPacket m r ts cand w).1 = .error .notConnected ∧
    (sendPacket m r ts cand w).2.lastMessageID = GenerateMessageId m.lastMessageID cand ∧
    m.lastMessageID < (sendPacket m r ts cand w).2.lastMessageID ∧
    (sendPacket m r ts cand w).2.seqNo = wrap32 (m.seqNo + 2) ∧
    (isNullableResponse r = false →
      alLookup (sendPacket m r ts cand w).2.responseChannels
        (GenerateMessageId m.lastMessageID cand) = some (getRespChannel m)) ∧
    (ts.isEmpty = false →
      alLookup (sendPacket m r ts cand w).2.expectedTypes
        (GenerateMessageId m.lastMessageID cand) = some ts) := by
  refine ⟨sendPacket_fst_noTransport m r ts cand w htr, ?_, ?_, ?_, ?_, ?_⟩
  · rw [sendPacket_snd]
  · rw [sendPacket_snd]
    exact GenerateMessageId_gt m.lastMessageID cand
  · rw [sendPacket_snd]
  · intro hn
    rw [sendPacket_snd]
    show alLookup (if isNullableResponse r = true then m.responseChannels
          else alInsert m.responseChannels (GenerateMessageId m.lastMessageID cand)
            (getRespChannel m)) (GenerateMessageId m.lastMessageID cand) = _
    rw [hn, if_neg (by simp)]
    exact alLookup_alInsert_self _ _ _
  · intro hts
    rw [sendPacket_snd]
    show alLookup (if ts.isEmpty then m.expectedTypes
          else alInsert m.expectedTypes (GenerateMessageId m.lastMessageID cand) ts)
        (GenerateMessageId m.lastMessageID cand) = some ts
    rw [hts, if_neg (by simp)]
    exact alLookup_alInsert_self _ _ _

/-- C10 witness: a send with no transport on a fresh session fails with the
not-connected error while the reply slot and the hint entry for the new
message ID are left registered. -/
theorem notConnected_mutation_c10_witness :
    exMTnoTr.transportSet = false ∧
    (sendPacket exMTnoTr (.other 2) [4] 6 true).1 = .error .notConnected ∧
    alLookup (sendPacket exMTnoTr (.other 2) [4] 6 true).2.responseChannels
      (GenerateMessageId exMTnoTr.lastMessageID 6) = some (getRespChannel exMTnoTr) ∧
    alLookup (sendPacket exMTnoTr (.other 2) [4] 6 true).2.expectedTypes
      (GenerateMessageId exMTnoTr.lastMessageID 6) = some [4] := by
  have h := notConnected_mutation_c10 exMTnoTr (.other 2) [4] 6 true rfl
  exact ⟨rfl, h.1, h.2.2.2.2.1 (by decide), h.2.2.2.2.2 (by decide)⟩

end Gogram
